import Mathlib

/-!
Verification development for the celltron news-analyzer pipeline
(src/llm_analyzer.py, src/llm_validator.py, src/main.py).

The Python code is shallowly embedded: strings are Lean `String`s
manipulated through Python-faithful helpers (`pyStrip`, `pyLower`,
`splitNl`, slicing), Python dicts are ordered association lists of
`String × Json`, and `json.loads` is treated as a function
`String → Option Json` (`none` models `json.JSONDecodeError`).
The theorems about the parsing/normalization pipeline are stated for an
arbitrary such `loads`; a concrete executable model `jsonLoads`
(a recursive-descent JSON reader) instantiates them on closed inputs.
-/

/-- Whitespace stripped by Python's `str.strip()` (ASCII subset). -/
def isPyWs (c : Char) : Bool :=
  c = ' ' || c = '\t' || c = '\n' || c = '\r' || c = '\x0b' || c = '\x0c'

/-- The character list of a string with `str.strip()` applied. -/
def stripChars (l : List Char) : List Char :=
  ((l.dropWhile isPyWs).reverse.dropWhile isPyWs).reverse

/-- Python `s.strip()`. -/
def pyStrip (s : String) : String := ⟨stripChars s.data⟩

/-- ASCII lower-casing of one character, as in Python `str.lower()`
on ASCII input. -/
def lowerCh (c : Char) : Char :=
  if 'A' ≤ c && c ≤ 'Z' then Char.ofNat (c.toNat + 32) else c

/-- Python `s.lower()` (ASCII). -/
def pyLower (s : String) : String := ⟨s.data.map lowerCh⟩

/-- Python `s.split('\n')` on character lists: split at every newline,
never returning an empty list of chunks. -/
def splitNl : List Char → List (List Char)
  | [] => [[]]
  | c :: cs =>
    match splitNl cs with
    | [] => [[c]]
    | l :: ls => if c = '\n' then [] :: l :: ls else (c :: l) :: ls

/-- Python `'\n'.join(lines)` on character lists. -/
def joinNl : List (List Char) → List Char
  | [] => []
  | [l] => l
  | l :: ls => l ++ '\n' :: joinNl ls

/-- Does `l` begin with the markdown fence marker, Python
`line.startswith('```')`. -/
def startsFence : List Char → Bool
  | '`' :: '`' :: '`' :: _ => true
  | _ => false

/-- Python `s.startswith('```')`. -/
def pyStartsFence (s : String) : Bool := startsFence s.data

/-- Does the character list `pat` occur at the start of `l`. -/
def leadsWith : List Char → List Char → Bool
  | [], _ => true
  | _ :: _, [] => false
  | p :: ps, c :: cs => p = c && leadsWith ps cs

/-- Does the character list `pat` occur contiguously anywhere in `l`
(Python substring containment). -/
def hasSubChars (pat : List Char) : List Char → Bool
  | [] => leadsWith pat []
  | c :: cs => leadsWith pat (c :: cs) || hasSubChars pat cs

/-- Python `pat in s` on strings (substring test). -/
def pyHasSub (s pat : String) : Bool := hasSubChars pat.data s.data

/-- Python `s[:n]` (slice of the first `n` code points). -/
def pySlice (s : String) (n : Nat) : String := ⟨s.data.take n⟩

/-- JSON values as produced by `json.loads`: objects are ordered
association lists (Python dicts). Floats are outside the model. -/
inductive Json where
  | null : Json
  | bool (b : Bool) : Json
  | num (n : Int) : Json
  | str (s : String) : Json
  | arr (elems : List Json) : Json
  | obj (members : List (String × Json)) : Json

/-- A Python dict with string keys. -/
abbrev PyDict := List (String × Json)

/-- First value bound to `k`, Python `d[k]` on a dict whose keys are
unique (as all dicts in this development are). -/
def dictFind (d : PyDict) (k : String) : Option Json :=
  match d with
  | [] => none
  | (k', v) :: rest => if k' = k then some v else dictFind rest k

/-- Python `k in d`. -/
def dictHasKey (d : PyDict) (k : String) : Bool := (dictFind d k).isSome

/-- Python `d.get(k, dflt)`. -/
def dictGetD (d : PyDict) (k : String) (dflt : Json) : Json :=
  (dictFind d k).getD dflt

/-- Python `d[k] = v`: replace the value in place if the key exists
(keeping its position), otherwise append the new binding. -/
def dictSet (d : PyDict) (k : String) (v : Json) : PyDict :=
  match d with
  | [] => [(k, v)]
  | (k', v') :: rest =>
    if k' = k then (k', v) :: rest else (k', v') :: dictSet rest k v

/-- Python truthiness of a JSON value (`bool(x)`). -/
def pyTruthy : Json → Bool
  | .null => false
  | .bool b => b
  | .num n => n ≠ 0
  | .str s => s ≠ ""
  | .arr l => !l.isEmpty
  | .obj d => !d.isEmpty

/-- Python `x == key` for a JSON value against a string key (used by
`key in some_list`). -/
def jsonEqStr (j : Json) (k : String) : Bool :=
  match j with
  | .str s => s = k
  | _ => false

/-! ### A concrete model of `json.loads`

A recursive-descent reader for the JSON fragment exercised by the
concrete inputs in this file: `null`, booleans, integers, strings with
the single-character escapes, arrays and objects. Trailing non-space
input is rejected, as `json.loads` does. -/

/-- JSON insignificant whitespace. -/
def jsWs (c : Char) : Bool :=
  c = ' ' || c = '\t' || c = '\n' || c = '\r'

/-- Read a JSON string body after the opening quote; returns the
content and the input after the closing quote. -/
def parseJStr : List Char → Option (List Char × List Char)
  | [] => none
  | '"' :: rest => some ([], rest)
  | '\\' :: e :: rest =>
    (match e with
     | '"' => some '"'
     | '\\' => some '\\'
     | '/' => some '/'
     | 'n' => some '\n'
     | 't' => some '\t'
     | 'r' => some '\r'
     | 'b' => some '\x08'
     | 'f' => some '\x0c'
     | _ => none).bind fun c =>
      (parseJStr rest).map fun (cs, rem) => (c :: cs, rem)
  | c :: rest =>
    if c.toNat < 32 then none
    else (parseJStr rest).map fun (cs, rem) => (c :: cs, rem)

/-- Read a run of decimal digits. -/
def takeDigits (l : List Char) : List Char × List Char :=
  match l with
  | [] => ([], [])
  | c :: cs =>
    if c.isDigit then
      let (ds, rest) := takeDigits cs
      (c :: ds, rest)
    else ([], l)

/-- Numeric value of a digit run. -/
def digitsVal : List Char → Nat → Nat
  | [], acc => acc
  | c :: cs, acc => digitsVal cs (acc * 10 + (c.toNat - 48))

/-- Read a JSON integer (fraction/exponent forms are outside the
model and rejected). -/
def parseJNum (l : List Char) : Option (Int × List Char) :=
  let (neg, l') := match l with
    | '-' :: rest => (true, rest)
    | _ => (false, l)
  match l' with
  | [] => none
  | c :: _ =>
    if !c.isDigit then none
    else
      let (ds, rest) :=
        match l' with
        | '0' :: rest0 => (['0'], rest0)
        | _ => takeDigits l'
      match rest with
      | '.' :: _ => none
      | 'e' :: _ => none
      | 'E' :: _ => none
      | _ =>
        let v : Int := Int.ofNat (digitsVal ds 0)
        some (if neg then -v else v, rest)

mutual

/-- Read one JSON value (fuelled recursion). -/
def parseJVal : Nat → List Char → Option (Json × List Char)
  | 0, _ => none
  | fuel + 1, l =>
    match l.dropWhile jsWs with
    | 'n' :: 'u' :: 'l' :: 'l' :: rest => some (.null, rest)
    | 't' :: 'r' :: 'u' :: 'e' :: rest => some (.bool true, rest)
    | 'f' :: 'a' :: 'l' :: 's' :: 'e' :: rest => some (.bool false, rest)
    | '"' :: rest =>
      (parseJStr rest).map fun (cs, rem) => (.str ⟨cs⟩, rem)
    | '[' :: rest =>
      (match rest.dropWhile jsWs with
       | ']' :: rem => some (.arr [], rem)
       | _ =>
         (parseJElems fuel rest).map fun (es, rem) => (.arr es, rem))
    | '{' :: rest =>
      (match rest.dropWhile jsWs with
       | '}' :: rem => some (.obj [], rem)
       | _ =>
         (parseJMembers fuel [] rest).map fun (d, rem) => (.obj d, rem))
    | l' =>
      (parseJNum l').map fun (n, rem) => (.num n, rem)

/-- Read the elements of a non-empty JSON array after `[`. -/
def parseJElems : Nat → List Char → Option (List Json × List Char)
  | 0, _ => none
  | fuel + 1, l =>
    (parseJVal fuel l).bind fun (j, rest) =>
      match rest.dropWhile jsWs with
      | ',' :: rest' =>
        (parseJElems fuel rest').map fun (es, rem) => (j :: es, rem)
      | ']' :: rem => some ([j], rem)
      | _ => none

/-- Read the members of a non-empty JSON object after `{`, building
the dict with Python assignment semantics (later duplicate keys
overwrite in place). -/
def parseJMembers : Nat → PyDict → List Char → Option (PyDict × List Char)
  | 0, _, _ => none
  | fuel + 1, acc, l =>
    match l.dropWhile jsWs with
    | '"' :: rest =>
      (parseJStr rest).bind fun (kcs, rest') =>
        match rest'.dropWhile jsWs with
        | ':' :: rest'' =>
          (parseJVal fuel rest'').bind fun (v, rem) =>
            let acc' := dictSet acc ⟨kcs⟩ v
            match rem.dropWhile jsWs with
            | ',' :: rem' => parseJMembers fuel acc' rem'
            | '}' :: rem' => some (acc', rem')
            | _ => none
        | _ => none
    | _ => none

end

/-- Executable model of `json.loads`: `none` models
`json.JSONDecodeError` (including trailing data after the value). -/
def jsonLoads (s : String) : Option Json :=
  match parseJVal (s.data.length + 1) s.data with
  | some (j, rest) => if (rest.dropWhile jsWs).isEmpty then some j else none
  | none => none

/-! ### Response cleaning (markdown fence removal)

`LLMAnalyzer._parse_response` (src/llm_analyzer.py lines 162-172) strips
whitespace and, when the text starts with a fence marker, drops the
first and last line.  `LLMValidator._parse_validation`
(src/llm_validator.py lines 235-242) instead drops every line that
starts with a fence marker. -/

/-- The cleanup applied by `LLMAnalyzer._parse_response` before
`json.loads`: strip, then `'\n'.join(lines[1:-1])` when the text starts
with a fence marker. -/
def cleanAnalyzer (s : String) : String :=
  let t := pyStrip s
  if pyStartsFence t then ⟨joinNl (((splitNl t.data).drop 1).dropLast)⟩
  else t

/-- The cleanup applied by `LLMValidator._parse_validation` before
`json.loads`: strip, then keep only the lines that do not start with a
fence marker when the text starts with one. -/
def cleanValidator (s : String) : String :=
  let t := pyStrip s
  if pyStartsFence t then
    ⟨joinNl ((splitNl t.data).filter (fun l => !startsFence l))⟩
  else t

/-! ### `LLMAnalyzer._parse_response` (src/llm_analyzer.py 148-208) -/

/-- The typed record extracted from a successful analysis response. -/
structure ParsedAnalysis where
  gist : String
  sentiment : String
  tone : String
deriving DecidableEq

/-- The closed sentiment vocabulary (src/llm_analyzer.py line 182). -/
def validSentiments : List String := ["positive", "negative", "neutral"]

/-- The closed tone vocabulary (src/llm_analyzer.py lines 189-190). -/
def validTones : List String :=
  ["urgent", "analytical", "satirical", "balanced", "critical",
   "celebratory", "alarming", "informative"]

/-- `analysis['sentiment'].lower().strip()` checked against the
vocabulary, out-of-vocabulary values replaced by `'neutral'`. -/
def normSentiment (s : String) : String :=
  let s' := pyStrip (pyLower s)
  if validSentiments.contains s' then s' else "neutral"

/-- `analysis['tone'].lower().strip()` checked against the vocabulary,
out-of-vocabulary values replaced by `'informative'`. -/
def normTone (s : String) : String :=
  let s' := pyStrip (pyLower s)
  if validTones.contains s' then s' else "informative"

/-- The body of `_parse_response` after cleanup: `none` models a raised
`LLMAnalyzerError` (JSON failure, a missing required field, a non-dict
JSON value, or a non-string field value). -/
def anaParseCleaned (loads : String → Option Json) (t : String) :
    Option ParsedAnalysis :=
  match loads t with
  | none => none
  | some (.obj d) =>
    if dictHasKey d "gist" && dictHasKey d "sentiment" && dictHasKey d "tone"
    then
      (match dictFind d "gist", dictFind d "sentiment", dictFind d "tone" with
       | some (.str g), some (.str sv), some (.str tv) =>
         some ⟨pyStrip g, normSentiment sv, normTone tv⟩
       | _, _, _ => none)
    else none
  | some _ => none

/-- `LLMAnalyzer._parse_response`, parameterized by the `json.loads`
model. -/
def parse_response (loads : String → Option Json) (response_text : String) :
    Option ParsedAnalysis :=
  anaParseCleaned loads (cleanAnalyzer response_text)

/-! ### `LLMValidator._parse_validation` (src/llm_validator.py 221-279) -/

/-- Outcome of `_parse_validation`: a returned dict, a returned
non-dict JSON value (reachable when a parsed string/list happens to
contain all four keys, so no item assignment is attempted), or a raised
`LLMValidatorError`. -/
inductive ValParse where
  | ok (d : PyDict) : ValParse
  | okOther (j : Json) : ValParse
  | err : ValParse

/-- The keyword-heuristic fallback taken on `json.JSONDecodeError`
(src/llm_validator.py lines 262-275); `t` is the cleaned text. -/
def kwFallback (t : String) : PyDict :=
  let lower := pyLower t
  let is_valid := pyHasSub lower "correct" || pyHasSub lower "accurate"
  [("is_valid", .bool is_valid),
   ("result", .str (if is_valid then "✓ Correct" else "✗ Issues Found")),
   ("reasoning", .str (pySlice t 200)),
   ("corrections", .obj [])]

/-- Default-filling for a parsed validation dict
(src/llm_validator.py lines 247-258). -/
def fillDefaults (d : PyDict) : PyDict :=
  let d1 := if dictHasKey d "is_valid" then d
            else dictSet d "is_valid" (.bool true)
  let d2 := if dictHasKey d1 "result" then d1
            else dictSet d1 "result"
              (.str (if pyTruthy (dictGetD d1 "is_valid" .null)
                     then "✓ Correct" else "✗ Issues Found"))
  let d3 := if dictHasKey d2 "reasoning" then d2
            else dictSet d2 "reasoning" (.str "Validation completed")
  let d4 := if dictHasKey d3 "corrections" then d3
            else dictSet d3 "corrections" (.obj [])
  d4

/-- The four keys probed by the default-filling code, in order. -/
def validationKeys : List String :=
  ["is_valid", "result", "reasoning", "corrections"]

/-- The body of `_parse_validation` after cleanup.  A parsed dict gets
defaults filled; `json.JSONDecodeError` takes the keyword fallback; a
parsed string or list raises `TypeError` at the first missing key's
item assignment (membership is substring/element containment) unless
all four keys are "present", in which case the value is returned
unchanged; other JSON values raise `TypeError` at the first membership
test.  Every `TypeError` is re-raised as `LLMValidatorError` by the
generic handler. -/
def valParseCleaned (loads : String → Option Json) (t : String) : ValParse :=
  match loads t with
  | none => .ok (kwFallback t)
  | some (.obj d) => .ok (fillDefaults d)
  | some (.str s) =>
    if validationKeys.all (fun k => pyHasSub s k) then .okOther (.str s)
    else .err
  | some (.arr l) =>
    if validationKeys.all (fun k => l.any (fun j => jsonEqStr j k)) then
      .okOther (.arr l)
    else .err
  | some _ => .err

/-- `LLMValidator._parse_validation`, parameterized by the `json.loads`
model. -/
def parse_validation (loads : String → Option Json)
    (validation_text : String) : ValParse :=
  valParseCleaned loads (cleanValidator validation_text)

/-! ### The retry loops

`LLMAnalyzer.analyze_article` (src/llm_analyzer.py 48-112) and
`LLMValidator.validate_analysis` (src/llm_validator.py 59-174) run a
`for attempt in range(retry_count)` loop around one external call.
The external world is modeled by an outcome oracle indexed by the
attempt number; a run is summarised by the number of calls issued, the
list of `time.sleep` durations (in seconds, in order), and the result.
A loop that falls through without an attempt returns Python `None`. -/

/-- Summary of one single-item operation run. -/
structure Trace (ρ : Type) where
  calls : Nat
  sleeps : List Nat
  result : ρ
deriving DecidableEq

/-- Outcome of one `self.model.generate_content(prompt)` call:
a raised exception, a falsy `response.text`, or a text body. -/
inductive AnaOutcome where
  | exc : AnaOutcome
  | empty : AnaOutcome
  | ok (text : String) : AnaOutcome

/-- Result of `analyze_article`: a `ValueError` from the input check, an
`AttributeError` from `len(text.strip())` on a non-string `full_text`,
a terminal `LLMAnalyzerError`, the implicit `None` of an empty loop, or
the returned analysis (parsed fields plus the raw response text). -/
inductive AnaRes where
  | valueError : AnaRes
  | attrError : AnaRes
  | terminalError : AnaRes
  | noneReturn : AnaRes
  | success (p : ParsedAnalysis) (raw : String) : AnaRes

/-- `[s, s+1, ..., s+n-1]`, the tail of a Python `range` loop. -/
def rangeFrom : Nat → Nat → List Nat
  | _, 0 => []
  | s, n + 1 => s :: rangeFrom (s + 1) n

/-- Python `range(n)` as a list of attempt indices. -/
def pyRange (n : Nat) : List Nat := rangeFrom 0 n

/-- The analyzer retry loop (src/llm_analyzer.py 80-112) over the
remaining attempt indices.  An empty `response.text` sleeps 1 second
when a retry remains and otherwise raises inside the `try`, landing in
the terminal branch of the generic handler; an exception (including a
parse failure) sleeps `2 ** attempt` seconds when a retry remains and
otherwise raises the terminal `LLMAnalyzerError`. -/
def anaLoop (parse : String → Option ParsedAnalysis)
    (outs : Nat → AnaOutcome) : List Nat → Trace AnaRes
  | [] => ⟨0, [], .noneReturn⟩
  | i :: rest =>
    match outs i with
    | .empty =>
      if rest.isEmpty then ⟨1, [], .terminalError⟩
      else
        let t := anaLoop parse outs rest
        ⟨t.calls + 1, 1 :: t.sleeps, t.result⟩
    | .exc =>
      if rest.isEmpty then ⟨1, [], .terminalError⟩
      else
        let t := anaLoop parse outs rest
        ⟨t.calls + 1, 2 ^ i :: t.sleeps, t.result⟩
    | .ok text =>
      match parse text with
      | some p => ⟨1, [], .success p text⟩
      | none =>
        if rest.isEmpty then ⟨1, [], .terminalError⟩
        else
          let t := anaLoop parse outs rest
          ⟨t.calls + 1, 2 ^ i :: t.sleeps, t.result⟩

/-- `LLMAnalyzer.analyze_article`: input validation (lines 63-72)
followed by the retry loop.  `retry_count` is a Python int; a
non-positive value yields an empty `range`. -/
def analyze_article (parse : String → Option ParsedAnalysis)
    (outs : Nat → AnaOutcome) (article : PyDict) (retry_count : Int) :
    Trace AnaRes :=
  if article.isEmpty || !dictHasKey article "full_text" then
    ⟨0, [], .valueError⟩
  else
    match dictGetD article "full_text" (.str "") with
    | .str text =>
      if (pyStrip text).length < 30 then ⟨0, [], .valueError⟩
      else anaLoop parse outs (pyRange retry_count.toNat)
    | _ => ⟨0, [], .attrError⟩

/-- Outcome of one `requests.post` call in the validator: a timeout, a
network error (`requests.exceptions.RequestException`), HTTP 429, some
other non-200 status, a 200 body without a non-empty `choices` list, or
a 200 body whose first choice carries `content`. -/
inductive VOutcome where
  | timeout : VOutcome
  | netErr : VOutcome
  | rate429 : VOutcome
  | badStatus : VOutcome
  | emptyChoices : VOutcome
  | content (t : String) : VOutcome

/-- Result of `validate_analysis`: an input-check `ValueError`, a
terminal `LLMValidatorError`, the implicit `None` of an empty loop, or
the returned validation dict (plus the raw validation text). -/
inductive ValRes where
  | valueError : ValRes
  | terminalError : ValRes
  | noneReturn : ValRes
  | success (d : PyDict) (raw : String) : ValRes

/-- The validator retry loop (src/llm_validator.py 96-174).  Sleeps
when a retry remains: HTTP 429 sleeps `2 ** attempt`; another non-200
status sleeps 1; a timeout or network error sleeps 2; every other
exception — empty `choices`, a parse error, or the `TypeError` from
indexing a non-dict parse result — sleeps 2 via the generic handler.
With no retry left each branch raises a terminal `LLMValidatorError`. -/
def valLoop (pv : String → ValParse) (outs : Nat → VOutcome) :
    List Nat → Trace ValRes
  | [] => ⟨0, [], .noneReturn⟩
  | i :: rest =>
    let step : Nat → Trace ValRes := fun d =>
      if rest.isEmpty then ⟨1, [], .terminalError⟩
      else
        let t := valLoop pv outs rest
        ⟨t.calls + 1, d :: t.sleeps, t.result⟩
    match outs i with
    | .timeout => step 2
    | .netErr => step 2
    | .rate429 => step (2 ^ i)
    | .badStatus => step 1
    | .emptyChoices => step 2
    | .content text =>
      match pv text with
      | .ok d => ⟨1, [], .success d text⟩
      | .okOther _ => step 2
      | .err => step 2

/-- `LLMValidator.validate_analysis`: input validation (lines 80-85,
requiring `full_text` on the article and `gist` and `sentiment` on the
analysis) followed by the retry loop. -/
def validate_analysis (pv : String → ValParse) (outs : Nat → VOutcome)
    (article analysis : PyDict) (retry_count : Int) : Trace ValRes :=
  if article.isEmpty || !dictHasKey article "full_text" then
    ⟨0, [], .valueError⟩
  else if analysis.isEmpty || !dictHasKey analysis "gist" ||
      !dictHasKey analysis "sentiment" then
    ⟨0, [], .valueError⟩
  else valLoop pv outs (pyRange retry_count.toNat)

/-! ### Batch operations -/

/-- The sentinel dict appended by `LLMAnalyzer.analyze_batch` when an
article fails (src/llm_analyzer.py 235-242). -/
def anaSentinel (article : PyDict) (e : String) : PyDict :=
  [("article_id", dictGetD article "id" (.str "unknown")),
   ("title", dictGetD article "title" (.str "Unknown")),
   ("error", .str e),
   ("gist", .str "Analysis failed"),
   ("sentiment", .str "neutral"),
   ("tone", .str "informative")]

/-- `LLMAnalyzer.analyze_batch` (src/llm_analyzer.py 210-244): the
per-article call (`self.analyze_article(article)`) is abstracted as a
function returning either the analysis dict or the message of the
raised exception; the inter-request `time.sleep(delay)` does not affect
the returned list. -/
def analyze_batch (f : PyDict → Except String PyDict)
    (articles : List PyDict) : List PyDict :=
  match articles with
  | [] => []
  | a :: rest =>
    (match f a with
     | .ok r => r
     | .error e => anaSentinel a e) :: analyze_batch f rest

/-- The sentinel dict appended by `LLMValidator.validate_batch` when a
pair fails (src/llm_validator.py 310-318). -/
def valSentinel (article : PyDict) (e : String) : PyDict :=
  [("article_id", dictGetD article "id" (.str "unknown")),
   ("title", dictGetD article "title" (.str "Unknown")),
   ("is_valid", .bool true),
   ("validation_result", .str "⚠ Validation Failed"),
   ("reasoning", .str ("Error: " ++ e)),
   ("corrections", .obj []),
   ("error", .str e)]

/-- The loop of `validate_batch` over the zipped pairs. -/
def valBatchLoop (g : PyDict → PyDict → Except String PyDict) :
    List (PyDict × PyDict) → List PyDict
  | [] => []
  | (a, an) :: rest =>
    (match g a an with
     | .ok r => r
     | .error e => valSentinel a e) :: valBatchLoop g rest

/-- `LLMValidator.validate_batch` (src/llm_validator.py 281-320):
mismatched lengths raise `ValueError` before any per-pair call; the
first component counts the per-pair `validate_analysis` calls issued. -/
def validate_batch (g : PyDict → PyDict → Except String PyDict)
    (articles analyses : List PyDict) : Nat × Except Unit (List PyDict) :=
  if articles.length ≠ analyses.length then (0, .error ())
  else
    let pairs := articles.zip analyses
    (pairs.length, .ok (valBatchLoop g pairs))

/-! ### `NewsAnalysisPipeline._calculate_statistics` (src/main.py 189-217) -/

/-- The fields of one combined result that the statistics pass reads:
`result['analysis']['sentiment']`, `result['analysis']['tone']` and
`result['validation']['is_valid']` (the latter kept as a JSON value
and tested for Python truthiness, as the code does). -/
structure CombinedRow where
  sentiment : String
  tone : String
  is_valid : Json

/-- A counting dict (`String` keys to int counts). -/
abbrev CountDict := List (String × Nat)

/-- First count bound to `k` in a counting dict. -/
def countFind (d : CountDict) (k : String) : Option Nat :=
  match d with
  | [] => none
  | (k', v) :: rest => if k' = k then some v else countFind rest k

/-- Add one to the count of a key already present (in place). -/
def countBump (d : CountDict) (k : String) : CountDict :=
  match d with
  | [] => []
  | (k', v) :: rest =>
    if k' = k then (k', v + 1) :: rest else (k', v) :: countBump rest k

/-- `if sentiment in sentiment_counts: sentiment_counts[sentiment] += 1`
(a key outside the fixed enumeration is dropped). -/
def sentStep (d : CountDict) (k : String) : CountDict :=
  if (countFind d k).isSome then countBump d k else d

/-- `tone_counts[tone] = tone_counts.get(tone, 0) + 1` (a new key is
appended with count 1). -/
def toneStep (d : CountDict) (k : String) : CountDict :=
  if (countFind d k).isSome then countBump d k else d ++ [(k, 1)]

/-- The value returned by `_calculate_statistics` (the float duration
is carried opaquely as an integer-valued placeholder). -/
structure Stats where
  total_articles : Nat
  duration : Int
  sentiment_distribution : CountDict
  tone_distribution : CountDict
  valid : Nat
  invalid : Nat
deriving DecidableEq

/-- `NewsAnalysisPipeline._calculate_statistics`: a single fold over
the results accumulating the three counters. -/
def calculate_statistics (results : List CombinedRow) (duration : Int) :
    Stats :=
  let init : CountDict := [("positive", 0), ("negative", 0), ("neutral", 0)]
  let fold :=
    results.foldl
      (fun (acc : CountDict × CountDict × Nat × Nat) r =>
        let (sc, tc, v, iv) := acc
        (sentStep sc r.sentiment, toneStep tc r.tone,
         if pyTruthy r.is_valid then v + 1 else v,
         if pyTruthy r.is_valid then iv else iv + 1))
      (init, [], 0, 0)
  { total_articles := results.length
    duration := duration
    sentiment_distribution := fold.1
    tone_distribution := fold.2.1
    valid := fold.2.2.1
    invalid := fold.2.2.2 }

/-! ### Theorems -/

/-- A dict with a present key is non-empty. -/
theorem hasKey_not_empty {d : PyDict} {k : String}
    (h : dictHasKey d k = true) : d.isEmpty = false := by
  cases d with
  | nil => simp [dictHasKey, dictFind] at h
  | cons p rest => rfl

/-- C5: an article without `full_text`, or whose trimmed `full_text`
has fewer than 30 characters, makes `analyze_article` raise
`ValueError` with zero model calls, zero sleeps, and no retry budget
consumed. -/
theorem analyze_short_input_fail_fast
    (parse : String → Option ParsedAnalysis) (outs : Nat → AnaOutcome)
    (article : PyDict) (retry_count : Int)
    (h : dictHasKey article "full_text" = false ∨
      ∃ t, dictFind article "full_text" = some (.str t) ∧
        (pyStrip t).length < 30) :
    analyze_article parse outs article retry_count = ⟨0, [], .valueError⟩ := by
  unfold analyze_article
  rcases h with h | ⟨t, ht, hlen⟩
  · simp [h]
  · have hk : dictHasKey article "full_text" = true := by
      simp [dictHasKey, ht]
    simp [hk, hasKey_not_empty hk, dictGetD, ht, hlen]

/-- Witness for C5 on a concrete too-short article. -/
theorem analyze_short_input_fail_fast_witness :
    analyze_article (fun _ => none) (fun _ => .exc)
      [("full_text", .str "   short   ")] 3 = ⟨0, [], .valueError⟩ :=
  analyze_short_input_fail_fast _ _ _ _
    (Or.inr ⟨"   short   ", rfl, by decide⟩)

/-- C7: `validate_batch` on lists of different lengths raises
`ValueError` immediately, with zero per-pair validation calls and no
partial output. -/
theorem validate_batch_length_mismatch
    (g : PyDict → PyDict → Except String PyDict)
    (articles analyses : List PyDict)
    (h : articles.length ≠ analyses.length) :
    validate_batch g articles analyses = (0, .error ()) := by
  unfold validate_batch
  simp [h]

/-- Witness for C7 on a concrete mismatched pair of lists. -/
theorem validate_batch_length_mismatch_witness :
    validate_batch (fun _ _ => .error "e") [[]] [] = (0, .error ()) :=
  validate_batch_length_mismatch _ _ _ (by decide)

/-- C10: with `retry_count ≤ 0` (Python `range` is empty) both
single-item operations on valid inputs issue no call, sleep never,
raise nothing, and return Python `None`; in particular the terminal
"failed after N attempts" error needs at least one attempt. -/
theorem zero_retry_returns_none
    (parse : String → Option ParsedAnalysis) (outs : Nat → AnaOutcome)
    (pv : String → ValParse) (vouts : Nat → VOutcome)
    (article analysis : PyDict) (retry_count : Int)
    (hrc : retry_count ≤ 0)
    (ha : ∃ t, dictFind article "full_text" = some (.str t) ∧
      30 ≤ (pyStrip t).length)
    (hg : dictHasKey analysis "gist" = true)
    (hs : dictHasKey analysis "sentiment" = true) :
    analyze_article parse outs article retry_count = ⟨0, [], .noneReturn⟩ ∧
    validate_analysis pv vouts article analysis retry_count
      = ⟨0, [], .noneReturn⟩ := by
  obtain ⟨t, ht, hlen⟩ := ha
  have hk : dictHasKey article "full_text" = true := by
    simp [dictHasKey, ht]
  have hr : retry_count.toNat = 0 := Int.toNat_of_nonpos hrc
  constructor
  · unfold analyze_article
    simp [hk, hasKey_not_empty hk, dictGetD, ht, Nat.not_lt.mpr hlen, hr,
      pyRange, rangeFrom, anaLoop]
  · unfold validate_analysis
    simp [hk, hasKey_not_empty hk, hasKey_not_empty hg, hg, hs, hr,
      pyRange, rangeFrom, valLoop]

/-- Witness for C10 at `retry_count = -1` on concrete valid inputs. -/
theorem zero_retry_returns_none_witness :
    analyze_article (fun _ => none) (fun _ => .exc)
      [("full_text", .str "0123456789012345678901234567890")] (-1)
      = ⟨0, [], .noneReturn⟩ ∧
    validate_analysis (fun _ => .err) (fun _ => .timeout)
      [("full_text", .str "0123456789012345678901234567890")]
      [("gist", .str "g"), ("sentiment", .str "neutral")] (-1)
      = ⟨0, [], .noneReturn⟩ :=
  zero_retry_returns_none _ _ _ _ _ _ _ (by decide)
    ⟨"0123456789012345678901234567890", rfl, by decide⟩ (by decide) (by decide)

/-- C2 (amended): when the cleaned validation text fails JSON parsing,
`_parse_validation` returns the keyword-fallback record computed from
the cleaned text (trimmed, fence lines removed): `is_valid` is true
exactly when the lower-cased cleaned text contains `correct` or
`accurate` as a substring, `reasoning` is its first 200 characters and
`corrections` is empty.  Note the substring test: because `inaccurate`
contains `accurate`, the text "This is wrong and inaccurate." also
yields `is_valid` true. -/
theorem keyword_fallback_spec (loads : String → Option Json) (s : String)
    (h : loads (cleanValidator s) = none) :
    parse_validation loads s =
      .ok [("is_valid",
            .bool (pyHasSub (pyLower (cleanValidator s)) "correct" ||
                   pyHasSub (pyLower (cleanValidator s)) "accurate")),
           ("result",
            .str (if pyHasSub (pyLower (cleanValidator s)) "correct" ||
                     pyHasSub (pyLower (cleanValidator s)) "accurate"
                  then "✓ Correct" else "✗ Issues Found")),
           ("reasoning", .str (pySlice (cleanValidator s) 200)),
           ("corrections", .obj [])] := by
  unfold parse_validation valParseCleaned
  rw [h]
  rfl

/-- Witness for C2: the first documented example, "The analysis looks
correct and accurate.", resolves through the fallback with
`is_valid = true`. -/
theorem keyword_fallback_spec_witness :
    parse_validation jsonLoads "The analysis looks correct and accurate."
      = .ok [("is_valid", .bool true), ("result", .str "✓ Correct"),
             ("reasoning", .str "The analysis looks correct and accurate."),
             ("corrections", .obj [])] :=
  keyword_fallback_spec jsonLoads "The analysis looks correct and accurate." rfl

/-- Counterexample for C2 as stated: the claim asserts that the raw
text "This is wrong and inaccurate." yields `is_valid = false`, but
`accurate` occurs inside `inaccurate`, so the code computes
`is_valid = true`. -/
theorem keyword_fallback_inaccurate_cex :
    parse_validation jsonLoads "This is wrong and inaccurate."
      = .ok [("is_valid", .bool true), ("result", .str "✓ Correct"),
             ("reasoning", .str "This is wrong and inaccurate."),
             ("corrections", .obj [])] ∧
    Json.bool true ≠ Json.bool false := by
  exact ⟨rfl, by simp⟩

/-- C3 (amended): `_parse_validation` returns without raising whenever
the cleaned text fails JSON parsing (the keyword fallback is terminal)
or parses to a JSON object (defaults are filled); but a text parsing
to a non-object JSON value such as a number raises `LLMValidatorError`
(modelled by `ValParse.err`), so the parse is not total. -/
theorem parse_validation_total_paths (loads : String → Option Json)
    (s : String) :
    (loads (cleanValidator s) = none →
      parse_validation loads s = .ok (kwFallback (cleanValidator s))) ∧
    (∀ d, loads (cleanValidator s) = some (.obj d) →
      parse_validation loads s = .ok (fillDefaults d)) ∧
    (∀ n, loads (cleanValidator s) = some (.num n) →
      parse_validation loads s = .err) := by
  refine ⟨fun h => ?_, fun d h => ?_, fun n h => ?_⟩ <;>
    · unfold parse_validation valParseCleaned
      rw [h]

/-- Witness for C3 discharging the JSON-failure path on a concrete
non-JSON text. -/
theorem parse_validation_total_paths_witness :
    parse_validation jsonLoads "totally bogus"
      = .ok (kwFallback (cleanValidator "totally bogus")) :=
  (parse_validation_total_paths jsonLoads "totally bogus").1 rfl

/-- Counterexample for C3 as stated: the raw text "42" parses as JSON
to the integer 42; `'is_valid' not in 42` then raises `TypeError`,
re-raised as `LLMValidatorError` by the generic handler, so parsing
raises rather than returning a validation record. -/
theorem parse_validation_raises_cex :
    parse_validation jsonLoads "42" = .err := rfl

/-- C6: a valid JSON analysis response carrying string `gist`,
`sentiment` and `tone` values never raises: `sentiment` and `tone` are
lower-cased, trimmed and checked against the closed vocabularies, an
out-of-vocabulary sentiment becoming `neutral` and an out-of-vocabulary
tone becoming `informative`, while in-vocabulary values are kept in
normalized form. -/
theorem vocab_normalization_spec (loads : String → Option Json)
    (s : String) (d : PyDict) (g sv tv : String)
    (hd : loads (cleanAnalyzer s) = some (.obj d))
    (hg : dictFind d "gist" = some (.str g))
    (hs : dictFind d "sentiment" = some (.str sv))
    (ht : dictFind d "tone" = some (.str tv)) :
    parse_response loads s = some ⟨pyStrip g, normSentiment sv, normTone tv⟩ ∧
    (validSentiments.contains (pyStrip (pyLower sv)) = false →
      normSentiment sv = "neutral") ∧
    (validTones.contains (pyStrip (pyLower tv)) = false →
      normTone tv = "informative") ∧
    (validSentiments.contains (pyStrip (pyLower sv)) = true →
      normSentiment sv = pyStrip (pyLower sv)) ∧
    (validTones.contains (pyStrip (pyLower tv)) = true →
      normTone tv = pyStrip (pyLower tv)) := by
  refine ⟨?_, fun h => ?_, fun h => ?_, fun h => ?_, fun h => ?_⟩
  · unfold parse_response anaParseCleaned
    rw [hd]
    simp [dictHasKey, hg, hs, ht]
  · have h' : pyStrip (pyLower sv) ∉ validSentiments := by simpa using h
    simp [normSentiment, h']
  · have h' : pyStrip (pyLower tv) ∉ validTones := by simpa using h
    simp [normTone, h']
  · have h' : pyStrip (pyLower sv) ∈ validSentiments := by simpa using h
    simp [normSentiment, h']
  · have h' : pyStrip (pyLower tv) ∈ validTones := by simpa using h
    simp [normTone, h']

/-- Witness for C6: a concrete response with out-of-vocabulary
sentiment `HAPPY` (normalized to `neutral`) and in-vocabulary tone
`" Urgent"` (normalized to `urgent`). -/
theorem vocab_normalization_spec_witness :
    parse_response jsonLoads
      "\x7b\"gist\": \" G \", \"sentiment\": \"HAPPY\", \"tone\": \" Urgent\"\x7d"
      = some ⟨"G", "neutral", "urgent"⟩ :=
  (vocab_normalization_spec jsonLoads
    "\x7b\"gist\": \" G \", \"sentiment\": \"HAPPY\", \"tone\": \" Urgent\"\x7d"
    [("gist", .str " G "), ("sentiment", .str "HAPPY"),
     ("tone", .str " Urgent")]
    " G " "HAPPY" " Urgent" rfl rfl rfl rfl).1

/-- `analyze_batch` produces one entry per article. -/
theorem analyze_batch_length (f : PyDict → Except String PyDict)
    (articles : List PyDict) :
    (analyze_batch f articles).length = articles.length := by
  induction articles with
  | nil => rfl
  | cons a rest ih => simp [analyze_batch, ih]

/-- Pointwise characterization of `analyze_batch`. -/
theorem analyze_batch_get (f : PyDict → Except String PyDict)
    (articles : List PyDict) (k : Nat) :
    (analyze_batch f articles)[k]? =
      (articles[k]?).map (fun a =>
        match f a with
        | .ok r => r
        | .error e => anaSentinel a e) := by
  induction articles generalizing k with
  | nil => simp [analyze_batch]
  | cons a rest ih =>
    cases k with
    | zero => simp [analyze_batch]
    | succ k' => simpa [analyze_batch] using ih k'

/-- `valBatchLoop` produces one entry per pair. -/
theorem valBatchLoop_length (g : PyDict → PyDict → Except String PyDict)
    (pairs : List (PyDict × PyDict)) :
    (valBatchLoop g pairs).length = pairs.length := by
  induction pairs with
  | nil => rfl
  | cons p rest ih =>
    obtain ⟨a, an⟩ := p
    simp [valBatchLoop, ih]

/-- Pointwise characterization of `valBatchLoop`. -/
theorem valBatchLoop_get (g : PyDict → PyDict → Except String PyDict)
    (pairs : List (PyDict × PyDict)) (k : Nat) :
    (valBatchLoop g pairs)[k]? =
      (pairs[k]?).map (fun (p : PyDict × PyDict) =>
        match g p.1 p.2 with
        | .ok r => r
        | .error e => valSentinel p.1 e) := by
  induction pairs generalizing k with
  | nil => simp [valBatchLoop]
  | cons p rest ih =>
    obtain ⟨a, an⟩ := p
    cases k with
    | zero => simp [valBatchLoop]
    | succ k' => simpa [valBatchLoop] using ih k'

/-- C1 (amended): both batch operations return exactly one entry per
input, index-aligned; position `k` carries the per-item success dict
when the per-item call returns and the sentinel dict when it raises
(`anaSentinel`: gist "Analysis failed", sentiment neutral, tone
informative, attached error string; `valSentinel`: `is_valid = true`
fail-open, label "⚠ Validation Failed", the error recorded in
`reasoning` and in an `error` field). -/
theorem batch_sentinel_alignment
    (f : PyDict → Except String PyDict)
    (g : PyDict → PyDict → Except String PyDict)
    (articles analyses : List PyDict)
    (h : articles.length = analyses.length) :
    (analyze_batch f articles).length = articles.length ∧
    (∀ k : Nat, (analyze_batch f articles)[k]? =
      (articles[k]?).map (fun a =>
        match f a with
        | .ok r => r
        | .error e => anaSentinel a e)) ∧
    ∃ l, (validate_batch g articles analyses).2 = .ok l ∧
      l.length = articles.length ∧
      ∀ k : Nat, l[k]? = ((articles.zip analyses)[k]?).map
        (fun (p : PyDict × PyDict) =>
        match g p.1 p.2 with
        | .ok r => r
        | .error e => valSentinel p.1 e) := by
  refine ⟨analyze_batch_length f articles, analyze_batch_get f articles,
    valBatchLoop g (articles.zip analyses), ?_, ?_,
    valBatchLoop_get g (articles.zip analyses)⟩
  · unfold validate_batch
    simp [h]
  · rw [valBatchLoop_length, List.length_zip, h, Nat.min_self]

/-- Witness for C1 on a two-article batch whose second item fails. -/
theorem batch_sentinel_alignment_witness :
    (analyze_batch
      (fun a => if a.isEmpty then .error "boom" else .ok a)
      [[("id", .num 1)], []])[1]?
      = some (anaSentinel [] "boom") :=
  ((batch_sentinel_alignment
      (fun a => if a.isEmpty then .error "boom" else .ok a)
      (fun _ _ => .error "boom")
      [[("id", .num 1)], []] [[], []] (by decide)).2.1 1).trans rfl

/-- Counterexample for C1 as stated: the failing-pair sentinel's
`validation_result` label is `"⚠ Validation Failed"`, not the claimed
`"Validation Failed"`. -/
theorem validation_sentinel_label_cex :
    (validate_batch (fun _ _ => .error "boom") [[]] [[]]).2
      = .ok [valSentinel [] "boom"] ∧
    dictFind (valSentinel [] "boom") "validation_result"
      = some (.str "⚠ Validation Failed") ∧
    Json.str "⚠ Validation Failed" ≠ Json.str "Validation Failed" :=
  ⟨rfl, rfl, by simp⟩

/-- Looking a key up after `countBump`. -/
theorem countFind_countBump (d : CountDict) (s k : String) :
    countFind (countBump d s) k =
      (countFind d k).map (fun c => if s = k then c + 1 else c) := by
  induction d with
  | nil => simp [countBump, countFind]
  | cons p rest ih =>
    obtain ⟨k', v⟩ := p
    by_cases h1 : k' = s
    · subst h1
      by_cases h2 : k' = k
      · subst h2
        simp [countBump, countFind]
      · simp [countBump, countFind, h2]
    · by_cases h2 : k' = k
      · subst h2
        have hs : ¬s = k' := fun h => h1 h.symm
        simp [countBump, countFind, h1, hs]
      · simp [countBump, countFind, h1, h2, ih]

/-- Looking a key up after appending a fresh singleton binding. -/
theorem countFind_append_single (d : CountDict) (s k : String) :
    countFind (d ++ [(s, 1)]) k =
      match countFind d k with
      | some c => some c
      | none => if s = k then some 1 else none := by
  induction d with
  | nil => simp [countFind]
  | cons p rest ih =>
    obtain ⟨k', v⟩ := p
    by_cases h2 : k' = k
    · simp [countFind, h2]
    · simp [countFind, h2, ih]

/-- Looking a key up after one `toneStep`. -/
theorem countFind_toneStep (d : CountDict) (s k : String) :
    countFind (toneStep d s) k =
      match countFind d k with
      | some c => some (if s = k then c + 1 else c)
      | none => if s = k then some 1 else none := by
  unfold toneStep
  by_cases hp : (countFind d s).isSome
  · rw [if_pos hp, countFind_countBump]
    by_cases hsk : s = k
    · subst hsk
      obtain ⟨c, hc⟩ := Option.isSome_iff_exists.mp hp
      simp [hc]
    · cases hdk : countFind d k <;> simp [hsk]
  · rw [if_neg hp, countFind_append_single]
    by_cases hsk : s = k
    · subst hsk
      have : countFind d s = none := Option.not_isSome_iff_eq_none.mp hp
      simp [this]
    · cases hdk : countFind d k <;> simp [hsk]

/-- The tone fold counts occurrences: present keys map to their count,
missing keys stay missing. -/
theorem toneFold_find (results : List CombinedRow) (tc : CountDict)
    (k : String) :
    countFind (results.foldl (fun d r => toneStep d r.tone) tc) k =
      match countFind tc k with
      | some c =>
        some (c + results.countP (fun r => decide (r.tone = k)))
      | none =>
        if results.countP (fun r => decide (r.tone = k)) = 0 then none
        else some (results.countP (fun r => decide (r.tone = k))) := by
  induction results generalizing tc with
  | nil => cases h : countFind tc k <;> simp [h]
  | cons r rs ih =>
    rw [List.foldl_cons, ih, countFind_toneStep, List.countP_cons]
    by_cases hrk : r.tone = k
    · cases h : countFind tc k <;> simp [hrk] <;> omega
    · cases h : countFind tc k <;> simp [hrk]

/-- The sentiment fold over the fixed three-key dict adds the exact
match counts in place. -/
theorem sentFold_explicit (results : List CombinedRow) (a b c : Nat) :
    results.foldl (fun d r => sentStep d r.sentiment)
      [("positive", a), ("negative", b), ("neutral", c)] =
      [("positive",
        a + results.countP (fun r => decide (r.sentiment = "positive"))),
       ("negative",
        b + results.countP (fun r => decide (r.sentiment = "negative"))),
       ("neutral",
        c + results.countP (fun r => decide (r.sentiment = "neutral")))] := by
  induction results generalizing a b c with
  | nil => simp
  | cons r rs ih =>
    rw [List.foldl_cons, List.countP_cons, List.countP_cons, List.countP_cons]
    by_cases h1 : r.sentiment = "positive"
    · have : sentStep [("positive", a), ("negative", b), ("neutral", c)]
          r.sentiment = [("positive", a + 1), ("negative", b), ("neutral", c)] := by
        simp [sentStep, countFind, countBump, h1]
      rw [this, ih]
      simp [h1]
      omega
    · by_cases h2 : r.sentiment = "negative"
      · have : sentStep [("positive", a), ("negative", b), ("neutral", c)]
            r.sentiment = [("positive", a), ("negative", b + 1), ("neutral", c)] := by
          simp [sentStep, countFind, countBump, h1, h2]
        rw [this, ih]
        simp [h1, h2]
        omega
      · by_cases h3 : r.sentiment = "neutral"
        · have : sentStep [("positive", a), ("negative", b), ("neutral", c)]
              r.sentiment = [("positive", a), ("negative", b), ("neutral", c + 1)] := by
            simp [sentStep, countFind, countBump, h1, h2, h3]
          rw [this, ih]
          simp [h1, h2, h3]
          omega
        · have e1 : ¬("positive" = r.sentiment) := fun h => h1 h.symm
          have e2 : ¬("negative" = r.sentiment) := fun h => h2 h.symm
          have e3 : ¬("neutral" = r.sentiment) := fun h => h3 h.symm
          have : sentStep [("positive", a), ("negative", b), ("neutral", c)]
              r.sentiment = [("positive", a), ("negative", b), ("neutral", c)] := by
            simp [sentStep, countFind, e1, e2, e3]
          rw [this, ih]
          simp [h1, h2, h3]

/-- The statistics fold decomposes into independent accumulators. -/
theorem statsFold_decomp (results : List CombinedRow) (sc tc : CountDict)
    (v iv : Nat) :
    results.foldl
      (fun (acc : CountDict × CountDict × Nat × Nat) r =>
        let (sc, tc, v, iv) := acc
        (sentStep sc r.sentiment, toneStep tc r.tone,
         if pyTruthy r.is_valid then v + 1 else v,
         if pyTruthy r.is_valid then iv else iv + 1))
      (sc, tc, v, iv) =
      (results.foldl (fun d r => sentStep d r.sentiment) sc,
       results.foldl (fun d r => toneStep d r.tone) tc,
       v + results.countP (fun r => pyTruthy r.is_valid),
       iv + results.countP (fun r => !pyTruthy r.is_valid)) := by
  induction results generalizing sc tc v iv with
  | nil => simp
  | cons r rs ih =>
    rw [List.foldl_cons, List.foldl_cons, List.foldl_cons]
    by_cases h : pyTruthy r.is_valid = true <;>
      simp [h, ih, List.countP_cons] <;> omega

/-- C9: for every result batch and duration, the statistics record has
`total_articles` equal to the batch length, a sentiment distribution
over exactly the three fixed keys with exact match counts (zeros
included), a tone distribution whose keys are exactly the observed
tones each mapped to its occurrence count, and valid/invalid counters
that partition the batch by the truthiness of the validation flag.
`calculate_statistics` is a total function: it cannot fail and does no
I/O. -/
theorem statistics_spec (results : List CombinedRow) (duration : Int) :
    (calculate_statistics results duration).total_articles = results.length ∧
    (calculate_statistics results duration).duration = duration ∧
    (calculate_statistics results duration).sentiment_distribution =
      [("positive",
        results.countP (fun r => decide (r.sentiment = "positive"))),
       ("negative",
        results.countP (fun r => decide (r.sentiment = "negative"))),
       ("neutral",
        results.countP (fun r => decide (r.sentiment = "neutral")))] ∧
    (∀ t : String,
      countFind (calculate_statistics results duration).tone_distribution t =
        if results.countP (fun r => decide (r.tone = t)) = 0 then none
        else some (results.countP (fun r => decide (r.tone = t)))) ∧
    (calculate_statistics results duration).valid =
      results.countP (fun r => pyTruthy r.is_valid) ∧
    (calculate_statistics results duration).invalid =
      results.countP (fun r => !pyTruthy r.is_valid) ∧
    (calculate_statistics results duration).valid +
      (calculate_statistics results duration).invalid = results.length := by
  have hsum : results.countP (fun r => pyTruthy r.is_valid) +
      results.countP (fun r => !pyTruthy r.is_valid) = results.length := by
    induction results with
    | nil => rfl
    | cons r rs ih =>
      by_cases h : pyTruthy r.is_valid = true <;>
        simp [List.countP_cons, h] <;> omega
  unfold calculate_statistics
  simp only [statsFold_decomp]
  refine ⟨by trivial, by trivial, ?_, ?_, by simp, by simp, by simpa using hsum⟩
  · simpa using sentFold_explicit results 0 0 0
  · intro t
    rw [toneFold_find]
    rfl

/-- Does this analyzer attempt outcome take a retry (as opposed to
returning)?  An `ok` body fails exactly when parsing fails. -/
def anaFails (parse : String → Option ParsedAnalysis) : AnaOutcome → Bool
  | .ok t => (parse t).isNone
  | _ => true

/-- Sleep in seconds after a failed analyzer attempt `i` when a retry
remains: 1 for an empty response, `2 ** attempt` otherwise. -/
def anaSleepOf (i : Nat) : AnaOutcome → Nat
  | .empty => 1
  | _ => 2 ^ i

/-- Does this validator attempt outcome take a retry?  A 200 response
with content fails exactly when validation parsing does not return a
dict. -/
def valFails (pv : String → ValParse) : VOutcome → Bool
  | .content t =>
    match pv t with
    | .ok _ => false
    | _ => true
  | _ => true

/-- Sleep in seconds after a failed validator attempt `i` when a retry
remains: `2 ** attempt` only for HTTP 429, 1 for another bad status,
2 for timeouts, network errors and every generic exception. -/
def valSleepOf (i : Nat) : VOutcome → Nat
  | .rate429 => 2 ^ i
  | .badStatus => 1
  | _ => 2

/-- One failing analyzer attempt with retries remaining: one more call,
the per-outcome sleep, then the rest of the loop. -/
theorem anaLoop_fail_step (parse : String → Option ParsedAnalysis)
    (outs : Nat → AnaOutcome) (i : Nat) (rest : List Nat)
    (hf : anaFails parse (outs i) = true) (hne : rest.isEmpty = false) :
    anaLoop parse outs (i :: rest) =
      ⟨(anaLoop parse outs rest).calls + 1,
       anaSleepOf i (outs i) :: (anaLoop parse outs rest).sleeps,
       (anaLoop parse outs rest).result⟩ := by
  cases ho : outs i with
  | empty => simp [anaLoop, ho, hne, anaSleepOf]
  | exc => simp [anaLoop, ho, hne, anaSleepOf]
  | ok t =>
    rw [ho] at hf
    cases hp : parse t with
    | some p => simp [anaFails, hp] at hf
    | none => simp [anaLoop, ho, hp, hne, anaSleepOf]

/-- A failing analyzer attempt with no retry left raises the terminal
error. -/
theorem anaLoop_fail_last (parse : String → Option ParsedAnalysis)
    (outs : Nat → AnaOutcome) (i : Nat)
    (hf : anaFails parse (outs i) = true) :
    anaLoop parse outs [i] = ⟨1, [], .terminalError⟩ := by
  cases ho : outs i with
  | empty => simp [anaLoop, ho]
  | exc => simp [anaLoop, ho]
  | ok t =>
    rw [ho] at hf
    cases hp : parse t with
    | some p => simp [anaFails, hp] at hf
    | none => simp [anaLoop, ho, hp]

/-- A parsed successful attempt returns at once. -/
theorem anaLoop_ok_step (parse : String → Option ParsedAnalysis)
    (outs : Nat → AnaOutcome) (i : Nat) (rest : List Nat) (t : String)
    (p : ParsedAnalysis) (ho : outs i = .ok t) (hp : parse t = some p) :
    anaLoop parse outs (i :: rest) = ⟨1, [], .success p t⟩ := by
  simp [anaLoop, ho, hp]

/-- When every attempt fails, the analyzer loop makes all `n` calls,
sleeps the per-outcome amount after each of the first `n - 1` failures,
and ends in the terminal error. -/
theorem anaLoop_all_fail (parse : String → Option ParsedAnalysis)
    (outs : Nat → AnaOutcome) :
    ∀ n s, 1 ≤ n → (∀ j, j < n → anaFails parse (outs (s + j)) = true) →
    anaLoop parse outs (rangeFrom s n) =
      ⟨n, (rangeFrom s (n - 1)).map (fun i => anaSleepOf i (outs i)),
       .terminalError⟩ := by
  intro n
  induction n with
  | zero => intro s h1 _; exact absurd h1 (by omega)
  | succ m ih =>
    intro s _ h2
    have hf := h2 0 (by omega)
    rw [Nat.add_zero] at hf
    cases m with
    | zero => exact anaLoop_fail_last parse outs s hf
    | succ m' =>
      have hne : (rangeFrom (s + 1) (m' + 1)).isEmpty = false := rfl
      have ih' := ih (s + 1) (by omega) (fun j hj => by
        have h := h2 (j + 1) (by omega)
        rwa [show s + (j + 1) = s + 1 + j by omega] at h)
      rw [show rangeFrom s (m' + 1 + 1) = s :: rangeFrom (s + 1) (m' + 1)
          from rfl,
        anaLoop_fail_step parse outs s _ hf hne, ih']
      simp [rangeFrom]

/-- A successful attempt `k` short-circuits the analyzer loop: exactly
`k + 1` calls, the `k` per-failure sleeps, and the parsed result. -/
theorem anaLoop_short_circuit (parse : String → Option ParsedAnalysis)
    (outs : Nat → AnaOutcome) :
    ∀ k s n t p, k < n →
    (∀ j, j < k → anaFails parse (outs (s + j)) = true) →
    outs (s + k) = .ok t → parse t = some p →
    anaLoop parse outs (rangeFrom s n) =
      ⟨k + 1, (rangeFrom s k).map (fun i => anaSleepOf i (outs i)),
       .success p t⟩ := by
  intro k
  induction k with
  | zero =>
    intro s n t p hkn _ ho hp
    rw [Nat.add_zero] at ho
    obtain ⟨m, rfl⟩ : ∃ m, n = m + 1 := ⟨n - 1, by omega⟩
    rw [show rangeFrom s (m + 1) = s :: rangeFrom (s + 1) m from rfl]
    exact anaLoop_ok_step parse outs s _ t p ho hp
  | succ k' ih =>
    intro s n t p hkn hfail ho hp
    obtain ⟨m, rfl⟩ : ∃ m, n = m + 1 := ⟨n - 1, by omega⟩
    have hne : (rangeFrom (s + 1) m).isEmpty = false := by
      obtain ⟨m', rfl⟩ : ∃ m'', m = m'' + 1 := ⟨m - 1, by omega⟩
      rfl
    have ih' := ih (s + 1) m t p (by omega)
      (fun j hj => by
        have h := hfail (j + 1) (by omega)
        rwa [show s + (j + 1) = s + 1 + j by omega] at h)
      (by rwa [show s + 1 + k' = s + (k' + 1) by omega])
      hp
    have hf := hfail 0 (by omega)
    rw [Nat.add_zero] at hf
    rw [show rangeFrom s (m + 1) = s :: rangeFrom (s + 1) m from rfl,
      anaLoop_fail_step parse outs s _ hf hne, ih']
    simp [rangeFrom]

/-- One failing validator attempt with retries remaining. -/
theorem valLoop_fail_step (pv : String → ValParse) (outs : Nat → VOutcome)
    (i : Nat) (rest : List Nat)
    (hf : valFails pv (outs i) = true) (hne : rest.isEmpty = false) :
    valLoop pv outs (i :: rest) =
      ⟨(valLoop pv outs rest).calls + 1,
       valSleepOf i (outs i) :: (valLoop pv outs rest).sleeps,
       (valLoop pv outs rest).result⟩ := by
  cases ho : outs i with
  | timeout => simp [valLoop, ho, hne, valSleepOf]
  | netErr => simp [valLoop, ho, hne, valSleepOf]
  | rate429 => simp [valLoop, ho, hne, valSleepOf]
  | badStatus => simp [valLoop, ho, hne, valSleepOf]
  | emptyChoices => simp [valLoop, ho, hne, valSleepOf]
  | content t =>
    rw [ho] at hf
    cases hp : pv t with
    | ok d => simp [valFails, hp] at hf
    | okOther j => simp [valLoop, ho, hp, hne, valSleepOf]
    | err => simp [valLoop, ho, hp, hne, valSleepOf]

/-- A failing validator attempt with no retry left raises the terminal
error. -/
theorem valLoop_fail_last (pv : String → ValParse) (outs : Nat → VOutcome)
    (i : Nat) (hf : valFails pv (outs i) = true) :
    valLoop pv outs [i] = ⟨1, [], .terminalError⟩ := by
  cases ho : outs i with
  | timeout => simp [valLoop, ho]
  | netErr => simp [valLoop, ho]
  | rate429 => simp [valLoop, ho]
  | badStatus => simp [valLoop, ho]
  | emptyChoices => simp [valLoop, ho]
  | content t =>
    rw [ho] at hf
    cases hp : pv t with
    | ok d => simp [valFails, hp] at hf
    | okOther j => simp [valLoop, ho, hp]
    | err => simp [valLoop, ho, hp]

/-- A successfully parsed validator attempt returns at once. -/
theorem valLoop_ok_step (pv : String → ValParse) (outs : Nat → VOutcome)
    (i : Nat) (rest : List Nat) (t : String) (d : PyDict)
    (ho : outs i = .content t) (hp : pv t = .ok d) :
    valLoop pv outs (i :: rest) = ⟨1, [], .success d t⟩ := by
  simp [valLoop, ho, hp]

/-- When every attempt fails, the validator loop makes all `n` calls,
sleeps the per-outcome amount after each of the first `n - 1` failures,
and ends in the terminal error. -/
theorem valLoop_all_fail (pv : String → ValParse) (outs : Nat → VOutcome) :
    ∀ n s, 1 ≤ n → (∀ j, j < n → valFails pv (outs (s + j)) = true) →
    valLoop pv outs (rangeFrom s n) =
      ⟨n, (rangeFrom s (n - 1)).map (fun i => valSleepOf i (outs i)),
       .terminalError⟩ := by
  intro n
  induction n with
  | zero => intro s h1 _; exact absurd h1 (by omega)
  | succ m ih =>
    intro s _ h2
    have hf := h2 0 (by omega)
    rw [Nat.add_zero] at hf
    cases m with
    | zero => exact valLoop_fail_last pv outs s hf
    | succ m' =>
      have hne : (rangeFrom (s + 1) (m' + 1)).isEmpty = false := rfl
      have ih' := ih (s + 1) (by omega) (fun j hj => by
        have h := h2 (j + 1) (by omega)
        rwa [show s + (j + 1) = s + 1 + j by omega] at h)
      rw [show rangeFrom s (m' + 1 + 1) = s :: rangeFrom (s + 1) (m' + 1)
          from rfl,
        valLoop_fail_step pv outs s _ hf hne, ih']
      simp [rangeFrom]

/-- A successful attempt `k` short-circuits the validator loop. -/
theorem valLoop_short_circuit (pv : String → ValParse)
    (outs : Nat → VOutcome) :
    ∀ k s n t d, k < n →
    (∀ j, j < k → valFails pv (outs (s + j)) = true) →
    outs (s + k) = .content t → pv t = .ok d →
    valLoop pv outs (rangeFrom s n) =
      ⟨k + 1, (rangeFrom s k).map (fun i => valSleepOf i (outs i)),
       .success d t⟩ := by
  intro k
  induction k with
  | zero =>
    intro s n t d hkn _ ho hp
    rw [Nat.add_zero] at ho
    obtain ⟨m, rfl⟩ : ∃ m, n = m + 1 := ⟨n - 1, by omega⟩
    rw [show rangeFrom s (m + 1) = s :: rangeFrom (s + 1) m from rfl]
    exact valLoop_ok_step pv outs s _ t d ho hp
  | succ k' ih =>
    intro s n t d hkn hfail ho hp
    obtain ⟨m, rfl⟩ : ∃ m, n = m + 1 := ⟨n - 1, by omega⟩
    have hne : (rangeFrom (s + 1) m).isEmpty = false := by
      obtain ⟨m', rfl⟩ : ∃ m'', m = m'' + 1 := ⟨m - 1, by omega⟩
      rfl
    have ih' := ih (s + 1) m t d (by omega)
      (fun j hj => by
        have h := hfail (j + 1) (by omega)
        rwa [show s + (j + 1) = s + 1 + j by omega] at h)
      (by rwa [show s + 1 + k' = s + (k' + 1) by omega])
      hp
    have hf := hfail 0 (by omega)
    rw [Nat.add_zero] at hf
    rw [show rangeFrom s (m + 1) = s :: rangeFrom (s + 1) m from rfl,
      valLoop_fail_step pv outs s _ hf hne, ih']
    simp [rangeFrom]

/-- C4 (amended): neither retry loop sleeps before its first attempt;
a loop whose attempts all fail issues all `n` calls, sleeps once
between consecutive attempts — `2 ** attempt` seconds only for an
analyzer exception (including a parse failure) or a validator HTTP
429; 1 second for an empty analyzer response or another non-200
validator status; a constant 2 seconds for validator timeouts, network
errors and generic exceptions — and raises the stage's typed error
(`LLMAnalyzerError` / `LLMValidatorError`) after the final failure
with no further attempt; a successful attempt returns immediately,
short-circuiting every remaining retry and sleeping no further. -/
theorem retry_backoff_spec (parse : String → Option ParsedAnalysis)
    (outs : Nat → AnaOutcome) (pv : String → ValParse)
    (vouts : Nat → VOutcome) (n k : Nat) :
    (1 ≤ n → (∀ j, j < n → anaFails parse (outs j) = true) →
      anaLoop parse outs (pyRange n) =
        ⟨n, (pyRange (n - 1)).map (fun i => anaSleepOf i (outs i)),
         .terminalError⟩) ∧
    (∀ t p, k < n → (∀ j, j < k → anaFails parse (outs j) = true) →
      outs k = .ok t → parse t = some p →
      anaLoop parse outs (pyRange n) =
        ⟨k + 1, (pyRange k).map (fun i => anaSleepOf i (outs i)),
         .success p t⟩) ∧
    (1 ≤ n → (∀ j, j < n → valFails pv (vouts j) = true) →
      valLoop pv vouts (pyRange n) =
        ⟨n, (pyRange (n - 1)).map (fun i => valSleepOf i (vouts i)),
         .terminalError⟩) ∧
    (∀ t d, k < n → (∀ j, j < k → valFails pv (vouts j) = true) →
      vouts k = .content t → pv t = .ok d →
      valLoop pv vouts (pyRange n) =
        ⟨k + 1, (pyRange k).map (fun i => valSleepOf i (vouts i)),
         .success d t⟩) := by
  refine ⟨fun h1 h2 => ?_, fun t p hkn hfail ho hp => ?_,
    fun h1 h2 => ?_, fun t d hkn hfail ho hp => ?_⟩
  · exact anaLoop_all_fail parse outs n 0 h1
      (fun j hj => by simpa using h2 j hj)
  · exact anaLoop_short_circuit parse outs k 0 n t p hkn
      (fun j hj => by simpa using hfail j hj) (by simpa using ho) hp
  · exact valLoop_all_fail pv vouts n 0 h1
      (fun j hj => by simpa using h2 j hj)
  · exact valLoop_short_circuit pv vouts k 0 n t d hkn
      (fun j hj => by simpa using hfail j hj) (by simpa using ho) hp

/-- Witness for C4: three analyzer attempts that all raise sleep
`2 ** 0` then `2 ** 1` seconds and end in the terminal error. -/
theorem retry_backoff_spec_witness :
    anaLoop (fun _ => none) (fun _ => .exc) (pyRange 3)
      = ⟨3, [1, 2], .terminalError⟩ :=
  (retry_backoff_spec (fun _ => none) (fun _ => .exc) (fun _ => .err)
    (fun _ => .timeout) 3 0).1 (by omega) (fun j _ => rfl)

/-- Counterexample for C4 as stated: a validator run whose three
attempts all fail in the generic branch (empty `choices`) sleeps
2 then 2 seconds, not the claimed `2 ** 0 = 1` then `2 ** 1 = 2`. -/
theorem retry_backoff_cex :
    valLoop (fun _ => .err) (fun _ => .emptyChoices) (pyRange 3)
      = ⟨3, [2, 2], .terminalError⟩ ∧ [2, 2] ≠ [2 ^ 0, 2 ^ 1] :=
  ⟨rfl, by decide⟩

/-- `splitNl` never returns an empty chunk list. -/
theorem splitNl_ne_nil (l : List Char) : splitNl l ≠ [] := by
  cases l with
  | nil => simp [splitNl]
  | cons c cs =>
    simp only [splitNl]
    cases h : splitNl cs with
    | nil => simp
    | cons a as => by_cases hc : c = '\n' <;> simp [hc]

/-- Splitting distributes over a newline separator. -/
theorem splitNl_append_nl :
    ∀ xs ys : List Char, splitNl (xs ++ '\n' :: ys) = splitNl xs ++ splitNl ys := by
  intro xs
  induction xs with
  | nil =>
    intro ys
    simp only [List.nil_append, splitNl]
    cases h : splitNl ys with
    | nil => exact absurd h (splitNl_ne_nil ys)
    | cons a as => simp
  | cons c cs ih =>
    intro ys
    simp only [List.cons_append, splitNl, List.append_eq]
    rw [ih ys]
    cases h : splitNl cs with
    | nil => exact absurd h (splitNl_ne_nil cs)
    | cons a as =>
      by_cases hc : c = '\n' <;> simp [hc]

/-- Joining undoes splitting. -/
theorem joinNl_splitNl : ∀ l : List Char, joinNl (splitNl l) = l := by
  intro l
  induction l with
  | nil => rfl
  | cons c cs ih =>
    simp only [splitNl]
    cases h : splitNl cs with
    | nil => exact absurd h (splitNl_ne_nil cs)
    | cons a as =>
      rw [h] at ih
      by_cases hc : c = '\n'
      · subst hc
        simpa [joinNl] using ih
      · cases as with
        | nil => simpa [joinNl, hc] using ih
        | cons b bs => simpa [joinNl, hc] using ih

/-- Dropping while a failed predicate heads the list is the identity. -/
theorem dropWhile_cons_false {p : Char → Bool} {a : Char} {l : List Char}
    (h : p a = false) : List.dropWhile p (a :: l) = a :: l := by
  simp [List.dropWhile_cons, h]

/-- The fence-wrapped text is already stripped: it starts and ends with
a backtick. -/
theorem wrap_strip (d : String) :
    pyStrip ("```json\n" ++ d ++ "\n```") = "```json\n" ++ d ++ "\n```" := by
  unfold pyStrip stripChars
  have h1 : ("```json\n" ++ d ++ "\n```").data.dropWhile isPyWs
      = ("```json\n" ++ d ++ "\n```").data := by
    rw [show ("```json\n" ++ d ++ "\n```").data
        = '`' :: ("``json\n" ++ d ++ "\n```").data from rfl]
    exact dropWhile_cons_false rfl
  have h2 : ("```json\n" ++ d ++ "\n```").data.reverse
      = '`' :: ('`' :: '`' :: '\n' ::
          (d.data.reverse ++ "```json\n".data.reverse)) := by
    show (("```json\n" ++ d).data ++ "\n```".data).reverse = _
    rw [List.reverse_append,
      show ("```json\n" ++ d).data = "```json\n".data ++ d.data from rfl,
      List.reverse_append]
    rfl
  rw [h1, h2, dropWhile_cons_false rfl, ← h2, List.reverse_reverse]

/-- Splitting the fence-wrapped text gives the opening fence line, the
lines of the document, and the closing fence line. -/
theorem wrap_split (d : String) :
    splitNl ("```json\n" ++ d ++ "\n```").data
      = "```json".data :: (splitNl d.data ++ ["```".data]) := by
  rw [show ("```json\n" ++ d ++ "\n```").data
      = "```json".data ++ '\n' :: (d.data ++ '\n' :: "```".data) from rfl,
    splitNl_append_nl, splitNl_append_nl]
  rfl

/-- Analyzer cleanup recovers the document from its fence-wrapped
form. -/
theorem cleanAnalyzer_wrap (d : String) :
    cleanAnalyzer ("```json\n" ++ d ++ "\n```") = d := by
  have hf : pyStartsFence ("```json\n" ++ d ++ "\n```") = true := rfl
  simp only [cleanAnalyzer, wrap_strip, hf, if_true]
  rw [wrap_split,
    show ("```json".data :: (splitNl d.data ++ ["```".data])).drop 1
      = splitNl d.data ++ ["```".data] from rfl]
  rw [show (splitNl d.data ++ ["```".data]).dropLast = splitNl d.data by simp]
  rw [joinNl_splitNl]

/-- Validator cleanup recovers the document from its fence-wrapped form
when no document line itself starts with a fence marker. -/
theorem cleanValidator_wrap (d : String)
    (h : ∀ l ∈ splitNl d.data, startsFence l = false) :
    cleanValidator ("```json\n" ++ d ++ "\n```") = d := by
  have hf : pyStartsFence ("```json\n" ++ d ++ "\n```") = true := rfl
  simp only [cleanValidator, wrap_strip, hf, if_true]
  rw [wrap_split]
  have hd : List.filter (fun l => !startsFence l) (splitNl d.data)
      = splitNl d.data :=
    List.filter_eq_self.mpr (fun a ha => by simp [h a ha])
  rw [List.filter_cons, List.filter_append, hd]
  rw [show (!startsFence ("```json".data)) = false from rfl]
  simp only [Bool.false_eq_true, if_false]
  rw [show List.filter (fun l => !startsFence l) [("```".data)] = [] from rfl,
    List.append_nil, joinNl_splitNl]

/-- Analyzer cleanup is the identity on an already-clean document. -/
theorem cleanAnalyzer_id (d : String) (h1 : pyStrip d = d)
    (h2 : pyStartsFence d = false) : cleanAnalyzer d = d := by
  simp [cleanAnalyzer, h1, h2]

/-- Validator cleanup is the identity on an already-clean document. -/
theorem cleanValidator_id (d : String) (h1 : pyStrip d = d)
    (h2 : pyStartsFence d = false) : cleanValidator d = d := by
  simp [cleanValidator, h1, h2]

/-- C8: a JSON document in canonical form (no surrounding whitespace,
not itself starting with a fence marker, no line of it starting with a
fence marker) parses to exactly the same typed record wrapped in a
markdown code fence as unwrapped, under both the analysis schema and
the validation schema. -/
theorem fence_wrap_invariance (loads : String → Option Json) (d : String)
    (h1 : pyStrip d = d) (h2 : pyStartsFence d = false)
    (h3 : ∀ l ∈ splitNl d.data, startsFence l = false) :
    parse_response loads ("```json\n" ++ d ++ "\n```")
      = parse_response loads d ∧
    parse_validation loads ("```json\n" ++ d ++ "\n```")
      = parse_validation loads d := by
  constructor
  · unfold parse_response
    rw [cleanAnalyzer_wrap, cleanAnalyzer_id d h1 h2]
  · unfold parse_validation
    rw [cleanValidator_wrap d h3, cleanValidator_id d h1 h2]

/-- Witness for C8 on a concrete analysis document and the concrete
`json.loads` model. -/
theorem fence_wrap_invariance_witness :
    parse_response jsonLoads
      ("```json\n" ++
        "\x7b\"gist\": \"g\", \"sentiment\": \"positive\", \"tone\": \"urgent\"\x7d"
        ++ "\n```")
      = parse_response jsonLoads
        "\x7b\"gist\": \"g\", \"sentiment\": \"positive\", \"tone\": \"urgent\"\x7d" ∧
    parse_validation jsonLoads
      ("```json\n" ++
        "\x7b\"gist\": \"g\", \"sentiment\": \"positive\", \"tone\": \"urgent\"\x7d"
        ++ "\n```")
      = parse_validation jsonLoads
        "\x7b\"gist\": \"g\", \"sentiment\": \"positive\", \"tone\": \"urgent\"\x7d" :=
  fence_wrap_invariance jsonLoads
    "\x7b\"gist\": \"g\", \"sentiment\": \"positive\", \"tone\": \"urgent\"\x7d"
    rfl rfl (by decide)
